import Mathlib

/- Verification of the astronomical position engine of the companion repository
   (src/app.py). Real-valued float arithmetic is embedded as exact rational
   arithmetic; the trigonometric primitives of the math module are abstracted
   as a record of rational functions; the one fallible float operation in the
   engine (the division in the ascendant computation) is embedded as Option. -/

namespace Companion

/-- Truncation toward zero on rationals, modelling the Python int conversion. -/
def pyInt (q : ℚ) : ℤ := if q < 0 then -⌊-q⌋ else ⌊q⌋

/-- Python floor division on floats, modelled exactly on rationals. -/
def pyFloorDiv (x y : ℚ) : ℚ := ⌊x / y⌋

/-- Python percent operator on floats, modelled exactly on rationals:
fmod x m = x - m * floor (x / m), the representative of x modulo m in
the interval from 0 to m when m is positive. -/
def fmod (x m : ℚ) : ℚ := x - m * ⌊x / m⌋

/-- Record of the trigonometric and angle-conversion primitives of the Python
math module used by src/app.py, abstracted as rational functions. -/
structure PyMath where
  sin : ℚ → ℚ
  cos : ℚ → ℚ
  tan : ℚ → ℚ
  atan : ℚ → ℚ
  radians : ℚ → ℚ
  degrees : ℚ → ℚ

/-- Embedding of to_julian_day from src/app.py. The datetime argument is
embedded as its six calendar fields; seconds may carry a fractional part. -/
structure CivilMoment where
  year : ℤ
  month : ℤ
  day : ℤ
  hour : ℤ
  minute : ℤ
  second : ℚ

def to_julian_day (dt : CivilMoment) : ℚ :=
  let year := dt.year
  let month := dt.month
  let day : ℚ := (dt.day : ℚ) + ((dt.hour : ℚ) + ((dt.minute : ℚ) + dt.second / 60.0) / 60.0) / 24.0
  let year := if month ≤ 2 then year - 1 else year
  let month := if month ≤ 2 then month + 12 else month
  let A := year / 100
  let B := 2 - A + A / 4
  ((pyInt (365.25 * ((year : ℚ) + 4716)) : ℚ)) + ((pyInt (30.6001 * ((month : ℚ) + 1)) : ℚ)) + day + (B : ℚ) - 1524.5

/-- Embedding of sun_ecliptic_longitude from src/app.py. -/
def sun_ecliptic_longitude (m : PyMath) (jd : ℚ) : ℚ :=
  let d := jd - 2451545.0
  let L := fmod (280.460 + 0.9856474 * d) 360
  let g := fmod (357.528 + 0.9856003 * d) 360
  let lambda_sun := L + 1.915 * m.sin (m.radians g) + 0.020 * m.sin (m.radians (2 * g))
  fmod lambda_sun 360

/-- Embedding of moon_ecliptic_longitude from src/app.py. -/
def moon_ecliptic_longitude (m : PyMath) (jd : ℚ) : ℚ :=
  let d := jd - 2451545.0
  let Lm := fmod (218.316 + 13.176396 * d) 360
  let Mm := fmod (134.963 + 13.064993 * d) 360
  let D := fmod (297.850 + 12.190749 * d) 360
  let lon := Lm + 6.289 * m.sin (m.radians Mm)
  let lon := lon + 1.274 * m.sin (m.radians (2 * D - Mm))
  let lon := lon + 0.658 * m.sin (m.radians (2 * D))
  let lon := lon + 0.213 * m.sin (m.radians (2 * Mm))
  fmod lon 360

/-- Round half to even on rationals, the tie-breaking rule of Python round. -/
def roundHalfEven (q : ℚ) : ℤ :=
  if Int.fract q < 1 / 2 then ⌊q⌋
  else if 1 / 2 < Int.fract q then ⌊q⌋ + 1
  else if ⌊q⌋ % 2 = 0 then ⌊q⌋ else ⌊q⌋ + 1

/-- Python round to one decimal place, modelled on rationals. -/
def pyRound1 (q : ℚ) : ℚ := ((roundHalfEven (q * 10) : ℚ)) / 10

/-- Embedding of moon_phase_illumination from src/app.py. -/
def moon_phase_illumination (m : PyMath) (jd : ℚ) : ℚ :=
  let ls := sun_ecliptic_longitude m jd
  let lm := moon_ecliptic_longitude m jd
  let phase_angle := fmod (lm - ls) 360
  let illum := (1 - m.cos (m.radians phase_angle)) * 50.0
  pyRound1 illum

/-- Embedding of gmst from src/app.py. -/
def gmst (jd : ℚ) : ℚ :=
  let d := jd - 2451545.0
  fmod (280.46061837 + 360.98564736629 * d) 360

/-- Embedding of local_sidereal_time from src/app.py. -/
def local_sidereal_time (jd longitude : ℚ) : ℚ :=
  fmod (gmst jd + longitude) 360

/-- Embedding of obliquity_of_ecliptic from src/app.py. -/
def obliquity_of_ecliptic (jd : ℚ) : ℚ :=
  let t := (jd - 2451545.0) / 36525.0
  23 + (26 + (21.448 - t * (46.815 + t * (0.00059 - t * 0.001813))) / 60) / 60

/-- Denominator of the arctangent argument inside approximate_ascendant_longitude;
the Python division raises ZeroDivisionError exactly when it vanishes. -/
def ascDenom (m : PyMath) (jd latitude longitude : ℚ) : ℚ :=
  m.sin (m.radians (local_sidereal_time jd longitude)) * m.sin (m.radians (obliquity_of_ecliptic jd))
    + m.tan (m.radians latitude) * m.cos (m.radians (obliquity_of_ecliptic jd))

/-- Embedding of approximate_ascendant_longitude from src/app.py. The division
by a computed float is fallible in Python, so the embedding returns none
exactly when the denominator vanishes and the division would raise. -/
def approximate_ascendant_longitude (m : PyMath) (jd latitude longitude : ℚ) : Option ℚ :=
  let lst_deg := local_sidereal_time jd longitude
  let lst := m.radians lst_deg
  let lat_rad := m.radians latitude
  let eps := m.radians (obliquity_of_ecliptic jd)
  let denom := m.sin lst * m.sin eps + m.tan lat_rad * m.cos eps
  if denom = 0 then none
  else
    let tan_asc := -m.cos lst / denom
    let asc := fmod (m.degrees (m.atan tan_asc)) 360
    let asc := if 0 < m.cos lst then asc + 180 else if m.sin lst < 0 then asc + 360 else asc
    some (fmod asc 360)

/-- Variant of approximate_ascendant_longitude with the second quadrant
correction branch removed, used to settle the dead-branch question. -/
def approximate_ascendant_longitude_noWrap (m : PyMath) (jd latitude longitude : ℚ) : Option ℚ :=
  let lst_deg := local_sidereal_time jd longitude
  let lst := m.radians lst_deg
  let lat_rad := m.radians latitude
  let eps := m.radians (obliquity_of_ecliptic jd)
  let denom := m.sin lst * m.sin eps + m.tan lat_rad * m.cos eps
  if denom = 0 then none
  else
    let tan_asc := -m.cos lst / denom
    let asc := fmod (m.degrees (m.atan tan_asc)) 360
    let asc := if 0 < m.cos lst then asc + 180 else asc
    some (fmod asc 360)

/-- Embedding of the ZODIAC list from src/app.py. -/
def ZODIAC : List String :=
  ["Aries", "Taurus", "Gemini", "Cancer", "Leo", "Virgo",
   "Libra", "Scorpio", "Sagittarius", "Capricorn", "Aquarius", "Pisces"]

/-- Embedding of zodiac_from_longitude from src/app.py. The list index is
provably within bounds, so the default value of getD is never used. -/
def zodiac_from_longitude (lon_deg : ℚ) : String :=
  let idx := pyInt (pyFloorDiv lon_deg 30) % 12
  ZODIAC.getD idx.toNat ("")

/-- Embedding of house_from_longitude from src/app.py. -/
def house_from_longitude (planet_lon asc_lon : ℚ) : ℤ :=
  let diff := fmod (planet_lon - asc_lon) 360
  let house := pyInt (pyFloorDiv diff 30) + 1
  house

/-- Embedding of the phase direction computation at line 425 of src/app.py. -/
def phase_direction (moon_lon sun_lon : ℚ) : String :=
  if 0 < fmod (moon_lon - sun_lon) 360 ∧ fmod (moon_lon - sun_lon) 360 < 180
  then ("Waxing") else ("Waning")

/-- Julian Day formula written from the spec wording of section 4.1, with
mathematical floors, for comparison with the source embedding. -/
def toJulianDay_spec (M : CivilMoment) : ℚ :=
  let adjYear := if M.month ≤ 2 then M.year - 1 else M.year
  let adjMonth := if M.month ≤ 2 then M.month + 12 else M.month
  let fracDay : ℚ := (M.day : ℚ) + ((M.hour : ℚ) + ((M.minute : ℚ) + M.second / 60) / 60) / 24
  let centuryTerm : ℤ := ⌊((adjYear : ℚ)) / 100⌋
  let gregorianCorrection : ℤ := 2 - centuryTerm + ⌊((centuryTerm : ℚ)) / 4⌋
  ((⌊(365.25 : ℚ) * ((adjYear : ℚ) + 4716)⌋ : ℚ)) + ((⌊(30.6001 : ℚ) * ((adjMonth : ℚ) + 1)⌋ : ℚ))
    + fracDay + (gregorianCorrection : ℚ) - 1524.5

/-- Ascendant formula written from the spec wording of sections 4.5 and 4.6,
with the same abstract trigonometric primitives, for comparison with the
source embedding. -/
def ascendant_spec (m : PyMath) (jd latitude longitude : ℚ) : ℚ :=
  let gmstDeg := fmod (280.46061837 + 360.98564736629 * (jd - 2451545.0)) 360
  let lstDeg := fmod (gmstDeg + longitude) 360
  let lst := m.radians lstDeg
  let latRad := m.radians latitude
  let t := (jd - 2451545.0) / 36525.0
  let epsDeg := 23 + (26 + (21.448 - t * (46.815 + t * (0.00059 - t * 0.001813))) / 60) / 60
  let eps := m.radians epsDeg
  let tanAsc := -m.cos lst / (m.sin lst * m.sin eps + m.tan latRad * m.cos eps)
  let ascRaw := fmod (m.degrees (m.atan tanAsc)) 360
  let asc := if 0 < m.cos lst then ascRaw + 180 else if m.sin lst < 0 then ascRaw + 360 else ascRaw
  fmod asc 360

/-- Gregorian calendar month lengths. -/
def daysInMonth (y mo : ℤ) : ℤ :=
  if mo = 2 then (if y % 4 = 0 ∧ (y % 100 ≠ 0 ∨ y % 400 = 0) then 29 else 28)
  else if mo = 4 ∨ mo = 6 ∨ mo = 9 ∨ mo = 11 then 30 else 31

/-- Calendar validity of a civil moment in the supported year range. -/
def ValidCivil (M : CivilMoment) : Prop :=
  1900 ≤ M.year ∧ M.year ≤ 2100 ∧ 1 ≤ M.month ∧ M.month ≤ 12 ∧
    1 ≤ M.day ∧ M.day ≤ daysInMonth M.year M.month ∧
    0 ≤ M.hour ∧ M.hour ≤ 23 ∧ 0 ≤ M.minute ∧ M.minute ≤ 59 ∧
    0 ≤ M.second ∧ M.second < 60

instance (M : CivilMoment) : Decidable (ValidCivil M) := by
  unfold ValidCivil
  infer_instance

/-- Lexicographic calendar ordering on civil moments. -/
def civilLt (a b : CivilMoment) : Prop :=
  a.year < b.year ∨ (a.year = b.year ∧ (a.month < b.month ∨ (a.month = b.month ∧
    (a.day < b.day ∨ (a.day = b.day ∧ (a.hour < b.hour ∨ (a.hour = b.hour ∧
      (a.minute < b.minute ∨ (a.minute = b.minute ∧ a.second < b.second)))))))))

instance (a b : CivilMoment) : Decidable (civilLt a b) := by
  unfold civilLt
  infer_instance

/-- Fraction of a day contributed by the time fields. -/
def timeFrac (M : CivilMoment) : ℚ :=
  ((M.hour : ℚ) + ((M.minute : ℚ) + M.second / 60) / 60) / 24

/-- Integer part of the Julian Day formula as a pure integer computation. -/
def jdIntPart (y mo : ℤ) : ℤ :=
  let y2 := if mo ≤ 2 then y - 1 else y
  let m2 := if mo ≤ 2 then mo + 12 else mo
  1461 * (y2 + 4716) / 4 + 306001 * (m2 + 1) / 10000 + (2 - y2 / 100 + y2 / 100 / 4)

/-- Concrete instantiation of the trigonometric record used to evaluate the
embedded definitions on explicit inputs. Its values agree with the Python
math module at every point where the evaluations below depend on them. -/
def cexMath : PyMath where
  sin := fun x => if x = 0 then 0 else 2 / 5
  cos := fun x => if x = 0 then 1 else if x = 180 then -1 else 11 / 12
  tan := fun x => if x = 0 then 0 else 1
  atan := fun _ => 0
  radians := fun x => x
  degrees := fun x => x

lemma fmod_nonneg (x : ℚ) {m : ℚ} (hm : 0 < m) : 0 ≤ fmod x m := by
  have h1 : ((⌊x / m⌋ : ℚ)) ≤ x / m := Int.floor_le (x / m)
  have h2 : m * ((⌊x / m⌋ : ℚ)) ≤ m * (x / m) :=
    mul_le_mul_of_nonneg_left h1 hm.le
  have h3 : m * (x / m) = x := by
    field_simp
  unfold fmod
  linarith

lemma fmod_lt (x : ℚ) {m : ℚ} (hm : 0 < m) : fmod x m < m := by
  have h1 : x / m < (⌊x / m⌋ : ℚ) + 1 := Int.lt_floor_add_one (x / m)
  have h2 : m * (x / m) < m * ((⌊x / m⌋ : ℚ) + 1) :=
    mul_lt_mul_of_pos_left h1 hm
  have h3 : m * (x / m) = x := by
    field_simp
  unfold fmod
  nlinarith

lemma fmod_add_int_mul (x : ℚ) {m : ℚ} (hm : m ≠ 0) (k : ℤ) :
    fmod (x + m * k) m = fmod x m := by
  have hdiv : (x + m * k) / m = x / m + (k : ℚ) := by
    field_simp
    ring
  unfold fmod
  rw [hdiv, Int.floor_add_int]
  push_cast
  ring

lemma fmod_eq_self {x m : ℚ} (h0 : 0 ≤ x) (h1 : x < m) : fmod x m = x := by
  have hm : 0 < m := lt_of_le_of_lt h0 h1
  have hfl : ⌊x / m⌋ = 0 := by
    rw [Int.floor_eq_zero_iff]
    constructor
    · exact div_nonneg h0 hm.le
    · rw [div_lt_one hm]
      exact h1
  unfold fmod
  rw [hfl]
  simp

lemma fmod_fmod_sub (x y : ℚ) {m : ℚ} (hm : m ≠ 0) :
    fmod (fmod x m - y) m = fmod (x - y) m := by
  have hrw : fmod x m - y = (x - y) + m * ((-⌊x / m⌋ : ℤ) : ℚ) := by
    unfold fmod
    push_cast
    ring
  rw [hrw, fmod_add_int_mul _ hm]

lemma pyInt_intCast (n : ℤ) : pyInt ((n : ℚ)) = n := by
  unfold pyInt
  split_ifs with h
  · rw [show -((n : ℚ)) = (((-n : ℤ) : ℚ)) by push_cast; ring, Int.floor_intCast]
    ring
  · exact Int.floor_intCast n

lemma fmod_add_period (x : ℚ) : fmod (x + 360) 360 = fmod x 360 := by
  have h := fmod_add_int_mul x (m := 360) (by norm_num) 1
  push_cast at h
  simpa using h

/-- C2 (counterexample): with latitude 0, which lies inside the claimed
domain, and a longitude that makes the local sidereal time vanish, the
denominator of the ascendant formula is exactly zero and the division in
src/app.py raises ZeroDivisionError instead of returning a longitude;
the embedding returns none. -/
theorem ascendant_zero_denominator_counterexample :
    approximate_ascendant_longitude cexMath 2451545 0 (-280.46061837) = none ∧
    ((-90 : ℚ) ≤ 0 ∧ (0 : ℚ) ≤ 90) := by
  constructor
  · norm_num [approximate_ascendant_longitude, local_sidereal_time, gmst,
      obliquity_of_ecliptic, fmod, cexMath]
  · norm_num

/-- C2 (amended): sun_ecliptic_longitude and moon_ecliptic_longitude always
return values in the interval from 0 inclusive to 360 exclusive, and
approximate_ascendant_longitude returns a value in that interval whenever
its internal division succeeds. -/
theorem longitude_range_invariants (m : PyMath) (jd lat lon : ℚ)
    (hlat : -90 ≤ lat ∧ lat ≤ 90) :
    (0 ≤ sun_ecliptic_longitude m jd ∧ sun_ecliptic_longitude m jd < 360) ∧
    (0 ≤ moon_ecliptic_longitude m jd ∧ moon_ecliptic_longitude m jd < 360) ∧
    ∀ v, approximate_ascendant_longitude m jd lat lon = some v → 0 ≤ v ∧ v < 360 := by
  have h360 : (0 : ℚ) < 360 := by norm_num
  refine ⟨⟨?_, ?_⟩, ⟨?_, ?_⟩, ?_⟩
  · simp only [sun_ecliptic_longitude]
    exact fmod_nonneg _ h360
  · simp only [sun_ecliptic_longitude]
    exact fmod_lt _ h360
  · simp only [moon_ecliptic_longitude]
    exact fmod_nonneg _ h360
  · simp only [moon_ecliptic_longitude]
    exact fmod_lt _ h360
  · intro v hv
    simp only [approximate_ascendant_longitude] at hv
    split_ifs at hv
    all_goals first
      | exact Option.noConfusion hv
      | (rw [Option.some.injEq] at hv
         subst hv
         exact ⟨fmod_nonneg _ h360, fmod_lt _ h360⟩)

/-- C2 (witness): the amended range invariant evaluated at a concrete
instantiation of the trigonometric record and concrete inputs. -/
theorem longitude_range_invariants_witness :
    (0 ≤ sun_ecliptic_longitude cexMath 2451545 ∧ sun_ecliptic_longitude cexMath 2451545 < 360) ∧
    (0 ≤ moon_ecliptic_longitude cexMath 2451545 ∧ moon_ecliptic_longitude cexMath 2451545 < 360) ∧
    ∀ v, approximate_ascendant_longitude cexMath 2451545 45 10 = some v → 0 ≤ v ∧ v < 360 :=
  longitude_range_invariants cexMath 2451545 45 10 (by norm_num)

/-- C10: removing the second quadrant correction branch of
approximate_ascendant_longitude never changes the returned value, because
the candidate value is already reduced into the interval from 0 to 360
before the correction and the final result is reduced modulo 360 again. -/
theorem ascendant_wrap_branch_redundant (m : PyMath) (jd lat lon : ℚ) :
    approximate_ascendant_longitude_noWrap m jd lat lon
      = approximate_ascendant_longitude m jd lat lon := by
  simp only [approximate_ascendant_longitude, approximate_ascendant_longitude_noWrap]
  split_ifs
  · rfl
  · rfl
  · rw [fmod_add_period]
  · rfl

/-- C6: the phase direction computed at line 425 of src/app.py is Waxing
exactly when the phase angle lies strictly between 0 and 180, Waning
otherwise, and in particular Waning when the two longitudes coincide. -/
theorem phase_direction_waxing_iff (lm ls : ℚ) :
    (phase_direction lm ls = ("Waxing") ↔
      (0 < fmod (lm - ls) 360 ∧ fmod (lm - ls) 360 < 180)) ∧
    (phase_direction lm ls = ("Waning") ↔
      ¬ (0 < fmod (lm - ls) 360 ∧ fmod (lm - ls) 360 < 180)) ∧
    (lm = ls → phase_direction lm ls = ("Waning")) := by
  have hzero : fmod 0 360 = 0 := by norm_num [fmod]
  unfold phase_direction
  split_ifs with h
  · refine ⟨⟨fun _ => h, fun _ => rfl⟩, ⟨fun hc => absurd hc (by decide), fun hc => absurd h hc⟩, ?_⟩
    intro heq
    exfalso
    rw [heq, sub_self, hzero] at h
    exact absurd h.1 (lt_irrefl 0)
  · exact ⟨⟨fun hc => absurd hc (by decide), fun hc => absurd hc h⟩,
      ⟨fun _ => h, fun _ => rfl⟩, fun _ => rfl⟩

/-- C6 (witness): equal longitudes give the Waning direction. -/
theorem phase_direction_waxing_iff_witness : phase_direction 0 0 = ("Waning") :=
  (phase_direction_waxing_iff 0 0).2.2 rfl

/-- C7: zodiac_from_longitude indexes the fixed twelve sign list by the
floor of the longitude divided by 30, reduced modulo 12, and the four
boundary values from the spec evaluate to the stated signs. -/
theorem zodiac_sign_boundaries (lon : ℚ) (h0 : 0 ≤ lon) (h1 : lon < 360) :
    zodiac_from_longitude lon = ZODIAC.getD ((⌊lon / 30⌋ % 12).toNat) ("") ∧
    zodiac_from_longitude 0 = ("Aries") ∧
    zodiac_from_longitude 29.999 = ("Aries") ∧
    zodiac_from_longitude 30 = ("Taurus") ∧
    zodiac_from_longitude 359.999 = ("Pisces") := by
  refine ⟨?_, ?_, ?_, ?_, ?_⟩
  · simp only [zodiac_from_longitude, pyFloorDiv]
    rw [pyInt_intCast]
  · norm_num [zodiac_from_longitude, pyFloorDiv, pyInt, ZODIAC]
  · norm_num [zodiac_from_longitude, pyFloorDiv, pyInt, ZODIAC]
  · norm_num [zodiac_from_longitude, pyFloorDiv, pyInt, ZODIAC]
  · norm_num [zodiac_from_longitude, pyFloorDiv, pyInt, ZODIAC]
    rfl

/-- C7 (witness): the index formula evaluated at longitude 45. -/
theorem zodiac_sign_boundaries_witness :
    zodiac_from_longitude 45 = ZODIAC.getD ((⌊(45 : ℚ) / 30⌋ % 12).toNat) ("") :=
  (zodiac_sign_boundaries 45 (by norm_num) (by norm_num)).1

/-- C8: house_from_longitude equals the equal house formula, always lies
between 1 and 12, anchors the ascendant in house 1, and wraps a longitude
just below the ascendant into house 12. -/
theorem house_number_spec (p a : ℚ) :
    house_from_longitude p a = ⌊fmod (p - a) 360 / 30⌋ + 1 ∧
    1 ≤ house_from_longitude p a ∧ house_from_longitude p a ≤ 12 ∧
    house_from_longitude a a = 1 ∧
    house_from_longitude (fmod (a - 0.001) 360) a = 12 := by
  have h360 : (0 : ℚ) < 360 := by norm_num
  have heq : ∀ x y : ℚ, house_from_longitude x y = ⌊fmod (x - y) 360 / 30⌋ + 1 := by
    intro x y
    simp only [house_from_longitude, pyFloorDiv]
    rw [pyInt_intCast]
  have h1 : 0 ≤ fmod (p - a) 360 := fmod_nonneg _ h360
  have h2 : fmod (p - a) 360 < 360 := fmod_lt _ h360
  refine ⟨heq p a, ?_, ?_, ?_, ?_⟩
  · rw [heq]
    have : (0 : ℤ) ≤ ⌊fmod (p - a) 360 / 30⌋ :=
      Int.le_floor.mpr (by push_cast; positivity)
    omega
  · rw [heq]
    have : ⌊fmod (p - a) 360 / 30⌋ < 12 := by
      rw [Int.floor_lt]
      rw [div_lt_iff₀ (by norm_num : (0 : ℚ) < 30)]
      push_cast
      linarith
    omega
  · rw [heq]
    rw [sub_self]
    have : fmod 0 360 = 0 := by norm_num [fmod]
    rw [this]
    norm_num
  · rw [heq]
    rw [fmod_fmod_sub _ _ (by norm_num : (360 : ℚ) ≠ 0)]
    rw [show (a - 0.001) - a = -0.001 by ring]
    norm_num [fmod]

/-- C3: src/app.py contains no pole guard at all: at latitude 90 the
ascendant function performs the full numeric computation and returns a
longitude in the interval from 0 to 360 whenever its division succeeds,
instead of raising a DomainError. -/
theorem ascendant_at_pole_returns_value (m : PyMath) (jd lon : ℚ)
    (h : ascDenom m jd 90 lon ≠ 0) :
    ∃ v, approximate_ascendant_longitude m jd 90 lon = some v ∧ 0 ≤ v ∧ v < 360 := by
  have h360 : (0 : ℚ) < 360 := by norm_num
  simp only [ascDenom] at h
  simp only [approximate_ascendant_longitude]
  rw [if_neg h]
  exact ⟨_, rfl, fmod_nonneg _ h360, fmod_lt _ h360⟩

/-- C3 (witness): concrete evaluation at latitude 90 showing a numeric
longitude is returned, with the denominator nonzero as in the float run. -/
theorem ascendant_at_pole_returns_value_witness :
    ∃ v, approximate_ascendant_longitude cexMath 2451545 90 0 = some v ∧ 0 ≤ v ∧ v < 360 :=
  ascendant_at_pole_returns_value cexMath 2451545 0
    (by norm_num [ascDenom, local_sidereal_time, gmst, obliquity_of_ecliptic, fmod, cexMath])

/-- C4: whenever the denominator of the arctangent argument is nonzero, the
source ascendant computation returns exactly the value of the spec formula:
local sidereal time from the linear GMST model plus longitude, the truncated
obliquity polynomial, the arctangent quotient, and the quadrant correction
adding 180 when the cosine of LST is positive, otherwise 360 when the sine
of LST is negative, all reduced modulo 360. -/
theorem ascendant_matches_spec_formula (m : PyMath) (jd lat lon : ℚ)
    (h : ascDenom m jd lat lon ≠ 0) :
    approximate_ascendant_longitude m jd lat lon = some (ascendant_spec m jd lat lon) := by
  simp only [ascDenom, local_sidereal_time, gmst, obliquity_of_ecliptic] at h
  simp only [approximate_ascendant_longitude, ascendant_spec, local_sidereal_time, gmst,
    obliquity_of_ecliptic]
  rw [if_neg h]

/-- C4 (witness): the spec formula equality evaluated at a concrete
instantiation with nonzero denominator. -/
theorem ascendant_matches_spec_formula_witness :
    approximate_ascendant_longitude cexMath 2451545 45 10
      = some (ascendant_spec cexMath 2451545 45 10) :=
  ascendant_matches_spec_formula cexMath 2451545 45 10
    (by norm_num [ascDenom, local_sidereal_time, gmst, obliquity_of_ecliptic, fmod, cexMath])

lemma roundHalfEven_nonneg {q : ℚ} (h : 0 ≤ q) : 0 ≤ roundHalfEven q := by
  have hf : (0 : ℤ) ≤ ⌊q⌋ := Int.le_floor.mpr (by exact_mod_cast h)
  unfold roundHalfEven
  split_ifs <;> omega

lemma roundHalfEven_le_of_le {q : ℚ} {n : ℤ} (h : q ≤ n) : roundHalfEven q ≤ n := by
  have hf : ⌊q⌋ ≤ n := by
    have := Int.floor_le_floor h
    rwa [Int.floor_intCast] at this
  have hid : ((⌊q⌋ : ℚ)) + Int.fract q = q := Int.floor_add_fract q
  unfold roundHalfEven
  split_ifs with h1 h2 h3
  · exact hf
  · by_contra hc
    push_neg at hc
    have hn : n = ⌊q⌋ := by omega
    rw [hn] at h
    have : Int.fract q ≤ 0 := by
      have hcast : ((⌊q⌋ : ℚ)) ≤ q - Int.fract q + 0 := by linarith
      linarith
    linarith
  · exact hf
  · by_contra hc
    push_neg at hc
    have hn : n = ⌊q⌋ := by omega
    rw [hn] at h
    have hhalf : Int.fract q = 1 / 2 := by
      push_neg at h1 h2
      linarith
    have : ((⌊q⌋ : ℚ)) + 1 / 2 ≤ ((⌊q⌋ : ℚ)) := by
      rw [← hhalf]
      linarith
    linarith

lemma pyRound1_mem {q : ℚ} (h0 : 0 ≤ q) (h1 : q ≤ 100) :
    0 ≤ pyRound1 q ∧ pyRound1 q ≤ 100 := by
  unfold pyRound1
  have ha : (0 : ℤ) ≤ roundHalfEven (q * 10) := roundHalfEven_nonneg (by linarith)
  have hb : roundHalfEven (q * 10) ≤ 1000 :=
    roundHalfEven_le_of_le (n := 1000) (by push_cast; linarith)
  have ha2 : (0 : ℚ) ≤ ((roundHalfEven (q * 10) : ℚ)) := by exact_mod_cast ha
  have hb2 : ((roundHalfEven (q * 10) : ℚ)) ≤ 1000 := by exact_mod_cast hb
  constructor
  · positivity
  · linarith

/-- C5: the moon illumination percent always lies between 0 and 100, equals
0 when the moon and sun longitudes coincide, and equals 100 when the moon
longitude is the sun longitude plus 180 reduced modulo 360. The three
hypotheses on the trigonometric record are facts of the float cosine. -/
theorem moon_illumination_percent_props (m : PyMath) (jd : ℚ)
    (hbound : ∀ x, -1 ≤ m.cos x ∧ m.cos x ≤ 1)
    (hcos0 : m.cos (m.radians 0) = 1)
    (hcos180 : m.cos (m.radians 180) = -1) :
    (0 ≤ moon_phase_illumination m jd ∧ moon_phase_illumination m jd ≤ 100) ∧
    (moon_ecliptic_longitude m jd = sun_ecliptic_longitude m jd →
      moon_phase_illumination m jd = 0) ∧
    (moon_ecliptic_longitude m jd = fmod (sun_ecliptic_longitude m jd + 180) 360 →
      moon_phase_illumination m jd = 100) := by
  have hzero : fmod 0 360 = 0 := by norm_num [fmod]
  refine ⟨?_, ?_, ?_⟩
  · simp only [moon_phase_illumination]
    obtain ⟨hc1, hc2⟩ := hbound (m.radians (fmod
      (moon_ecliptic_longitude m jd - sun_ecliptic_longitude m jd) 360))
    exact pyRound1_mem (by linarith) (by linarith)
  · intro heq
    simp only [moon_phase_illumination]
    rw [heq, sub_self, hzero, hcos0]
    norm_num [pyRound1, roundHalfEven]
  · intro heq
    simp only [moon_phase_illumination]
    rw [heq, fmod_fmod_sub _ _ (by norm_num : (360 : ℚ) ≠ 0),
      show sun_ecliptic_longitude m jd + 180 - sun_ecliptic_longitude m jd = 180 by ring,
      fmod_eq_self (by norm_num) (by norm_num), hcos180]
    norm_num [pyRound1, roundHalfEven]

/-- C5 (witness): the percent range at a concrete instantiation whose cosine
values satisfy the three hypotheses. -/
theorem moon_illumination_percent_props_witness :
    0 ≤ moon_phase_illumination cexMath 2451545 ∧
      moon_phase_illumination cexMath 2451545 ≤ 100 :=
  (moon_illumination_percent_props cexMath 2451545
    (by intro x; simp only [cexMath]; split_ifs <;> norm_num)
    (by norm_num [cexMath]) (by norm_num [cexMath])).1

lemma pyInt_eq_floor {q : ℚ} (h : 0 ≤ q) : pyInt q = ⌊q⌋ := by
  unfold pyInt
  rw [if_neg (not_lt.mpr h)]

lemma floor_intCast_div_100 (a : ℤ) : ⌊((a : ℚ)) / 100⌋ = a / 100 := by
  rw [show (100 : ℚ) = (((100 : ℕ)) : ℚ) by norm_num]
  exact_mod_cast Rat.floor_intCast_div_natCast a 100

lemma floor_intCast_div_4 (a : ℤ) : ⌊((a : ℚ)) / 4⌋ = a / 4 := by
  rw [show (4 : ℚ) = (((4 : ℕ)) : ℚ) by norm_num]
  exact_mod_cast Rat.floor_intCast_div_natCast a 4

/-- C1: for a calendar valid civil moment in the supported year range the
source computation returns exactly the Gregorian Julian Day formula of the
spec, with truncation coinciding with the mathematical floor because every
truncated quantity is nonnegative there. -/
theorem to_julian_day_matches_formula (M : CivilMoment) (h : ValidCivil M) :
    to_julian_day M = toJulianDay_spec M := by
  obtain ⟨hy1, hy2, hm1, hm2, hrest⟩ := h
  simp only [to_julian_day, toJulianDay_spec]
  by_cases hle : M.month ≤ 2
  · simp only [if_pos hle]
    have hyq : (1899 : ℚ) ≤ ((M.year - 1 : ℤ) : ℚ) := by
      have : (1899 : ℤ) ≤ M.year - 1 := by omega
      exact_mod_cast this
    have hmq : (13 : ℚ) ≤ ((M.month + 12 : ℤ) : ℚ) := by
      have : (13 : ℤ) ≤ M.month + 12 := by omega
      exact_mod_cast this
    rw [pyInt_eq_floor (by nlinarith), pyInt_eq_floor (by nlinarith),
      floor_intCast_div_100, floor_intCast_div_4]
    norm_num
  · simp only [if_neg hle]
    have hyq : (1900 : ℚ) ≤ ((M.year : ℤ) : ℚ) := by exact_mod_cast hy1
    have hmq : (3 : ℚ) ≤ ((M.month : ℤ) : ℚ) := by
      have : (3 : ℤ) ≤ M.month := by omega
      exact_mod_cast this
    rw [pyInt_eq_floor (by nlinarith), pyInt_eq_floor (by nlinarith),
      floor_intCast_div_100, floor_intCast_div_4]
    norm_num

/-- C1 (witness): the formula equality evaluated at noon of 1 January 2000. -/
theorem to_julian_day_matches_formula_witness :
    to_julian_day ⟨2000, 1, 1, 12, 0, 0⟩ = toJulianDay_spec ⟨2000, 1, 1, 12, 0, 0⟩ :=
  to_julian_day_matches_formula ⟨2000, 1, 1, 12, 0, 0⟩
    (by norm_num [ValidCivil, daysInMonth])

lemma daysInMonth_ge (y mo : ℤ) : 28 ≤ daysInMonth y mo := by
  unfold daysInMonth
  split_ifs <;> omega

lemma mul_1461_ediv_four (n : ℤ) : 1461 * n / 4 = 365 * n + n / 4 := by
  rw [show 1461 * n = n + 4 * (365 * n) by ring, Int.add_mul_ediv_left _ _ (by norm_num : (4 : ℤ) ≠ 0)]
  ring

lemma jdIntPart_step (y mo : ℤ) (h1 : 1 ≤ mo) (h2 : mo ≤ 12) :
    jdIntPart (if mo = 12 then y + 1 else y) (if mo = 12 then 1 else mo + 1)
      = jdIntPart y mo + daysInMonth y mo := by
  unfold jdIntPart daysInMonth
  interval_cases mo <;> simp [mul_1461_ediv_four] <;> first | omega | (split_ifs <;> omega)

lemma jdIntPart_mono : ∀ (n : ℕ) (y1 m1 y2 m2 : ℤ), 1 ≤ m1 → m1 ≤ 12 → 1 ≤ m2 → m2 ≤ 12 →
    12 * y2 + m2 - (12 * y1 + m1) = (n : ℤ) → jdIntPart y1 m1 ≤ jdIntPart y2 m2 := by
  intro n
  induction n with
  | zero =>
    intro y1 m1 y2 m2 hm1 hm2 hm3 hm4 hn
    have heq : y1 = y2 ∧ m1 = m2 := by omega
    rw [heq.1, heq.2]
  | succ k ih =>
    intro y1 m1 y2 m2 hm1 hm2 hm3 hm4 hn
    have hstep := jdIntPart_step y1 m1 hm1 hm2
    have hd := daysInMonth_ge y1 m1
    by_cases h12 : m1 = 12
    · rw [if_pos h12, if_pos h12] at hstep
      have hrec := ih (y1 + 1) 1 y2 m2 (by norm_num) (by norm_num) hm3 hm4 (by omega)
      omega
    · rw [if_neg h12, if_neg h12] at hstep
      have hrec := ih y1 (m1 + 1) y2 m2 (by omega) (by omega) hm3 hm4 (by omega)
      omega

lemma jdIntPart_date_lt (y1 m1 d1 y2 m2 d2 : ℤ)
    (hm11 : 1 ≤ m1) (hm12 : m1 ≤ 12) (hm21 : 1 ≤ m2) (hm22 : m2 ≤ 12)
    (hd11 : 1 ≤ d1) (hd12 : d1 ≤ daysInMonth y1 m1) (hd21 : 1 ≤ d2)
    (hlt : y1 < y2 ∨ (y1 = y2 ∧ (m1 < m2 ∨ (m1 = m2 ∧ d1 < d2)))) :
    jdIntPart y1 m1 + d1 + 1 ≤ jdIntPart y2 m2 + d2 := by
  have hkey : 12 * y1 + m1 < 12 * y2 + m2 ∨ (y1 = y2 ∧ m1 = m2 ∧ d1 < d2) := by omega
  rcases hkey with hidx | ⟨hy, hm, hd⟩
  · have hstep := jdIntPart_step y1 m1 hm11 hm12
    by_cases h12 : m1 = 12
    · rw [if_pos h12, if_pos h12] at hstep
      have hmono := jdIntPart_mono (12 * y2 + m2 - (12 * (y1 + 1) + 1)).toNat
        (y1 + 1) 1 y2 m2 (by norm_num) (by norm_num) hm21 hm22 (by omega)
      omega
    · rw [if_neg h12, if_neg h12] at hstep
      have hmono := jdIntPart_mono (12 * y2 + m2 - (12 * y1 + (m1 + 1))).toNat
        y1 (m1 + 1) y2 m2 (by omega) (by omega) hm21 hm22 (by omega)
      omega
  · rw [hy, hm]
    omega

lemma pyInt_365 (y : ℤ) (hy : 0 ≤ y + 4716) :
    pyInt ((365.25 : ℚ) * (((y : ℚ)) + 4716)) = 1461 * (y + 4716) / 4 := by
  have harg : (365.25 : ℚ) * (((y : ℚ)) + 4716) = (((1461 * (y + 4716) : ℤ)) : ℚ) / (((4 : ℕ)) : ℚ) := by
    push_cast
    ring
  have hnn : (0 : ℤ) ≤ 1461 * (y + 4716) := by omega
  rw [harg, pyInt_eq_floor (div_nonneg (by exact_mod_cast hnn) (by norm_num))]
  exact Rat.floor_intCast_div_natCast _ 4

lemma pyInt_306001 (mo : ℤ) (hm : 0 ≤ mo + 1) :
    pyInt ((30.6001 : ℚ) * (((mo : ℚ)) + 1)) = 306001 * (mo + 1) / 10000 := by
  have harg : (30.6001 : ℚ) * (((mo : ℚ)) + 1) = (((306001 * (mo + 1) : ℤ)) : ℚ) / (((10000 : ℕ)) : ℚ) := by
    push_cast
    ring
  have hnn : (0 : ℤ) ≤ 306001 * (mo + 1) := by omega
  rw [harg, pyInt_eq_floor (div_nonneg (by exact_mod_cast hnn) (by norm_num))]
  exact Rat.floor_intCast_div_natCast _ 10000

lemma to_julian_day_eq_intPart (M : CivilMoment) (hy : 1900 ≤ M.year)
    (hm1 : 1 ≤ M.month) (hm2 : M.month ≤ 12) :
    to_julian_day M = ((jdIntPart M.year M.month : ℤ) : ℚ) + ((M.day : ℚ) + timeFrac M) - 1524.5 := by
  simp only [to_julian_day, jdIntPart, timeFrac]
  by_cases hle : M.month ≤ 2
  · simp only [if_pos hle]
    rw [pyInt_365 _ (by omega), pyInt_306001 _ (by omega)]
    push_cast
    ring
  · simp only [if_neg hle]
    rw [pyInt_365 _ (by omega), pyInt_306001 _ (by omega)]
    push_cast
    ring

lemma timeFrac_expand (M : CivilMoment) :
    timeFrac M = ((M.hour : ℚ)) / 24 + ((M.minute : ℚ)) / 1440 + M.second / 86400 := by
  unfold timeFrac
  ring

lemma timeFrac_nonneg (M : CivilMoment) (hh : 0 ≤ M.hour) (hm : 0 ≤ M.minute)
    (hs : 0 ≤ M.second) : 0 ≤ timeFrac M := by
  rw [timeFrac_expand]
  have h1 : (0 : ℚ) ≤ ((M.hour : ℚ)) := by exact_mod_cast hh
  have h2 : (0 : ℚ) ≤ ((M.minute : ℚ)) := by exact_mod_cast hm
  positivity

lemma timeFrac_lt_one (M : CivilMoment) (hh : M.hour ≤ 23) (hm : M.minute ≤ 59)
    (hs : M.second < 60) : timeFrac M < 1 := by
  rw [timeFrac_expand]
  have h1 : ((M.hour : ℚ)) ≤ 23 := by exact_mod_cast hh
  have h2 : ((M.minute : ℚ)) ≤ 59 := by exact_mod_cast hm
  linarith

lemma timeFrac_strict (M1 M2 : CivilMoment)
    (h1m : M1.minute ≤ 59) (h1s : M1.second < 60)
    (h2m : 0 ≤ M2.minute) (h2s : 0 ≤ M2.second)
    (hlt : M1.hour < M2.hour ∨ (M1.hour = M2.hour ∧
      (M1.minute < M2.minute ∨ (M1.minute = M2.minute ∧ M1.second < M2.second)))) :
    timeFrac M1 < timeFrac M2 := by
  rw [timeFrac_expand, timeFrac_expand]
  have c1m : ((M1.minute : ℚ)) ≤ 59 := by exact_mod_cast h1m
  have c2m : (0 : ℚ) ≤ ((M2.minute : ℚ)) := by exact_mod_cast h2m
  rcases hlt with h | ⟨he, h | ⟨he2, h⟩⟩
  · have : ((M1.hour : ℚ)) + 1 ≤ ((M2.hour : ℚ)) := by exact_mod_cast Int.add_one_le_iff.mpr h
    linarith
  · have heq : ((M1.hour : ℚ)) = ((M2.hour : ℚ)) := by exact_mod_cast he
    have : ((M1.minute : ℚ)) + 1 ≤ ((M2.minute : ℚ)) := by exact_mod_cast Int.add_one_le_iff.mpr h
    linarith
  · have heq : ((M1.hour : ℚ)) = ((M2.hour : ℚ)) := by exact_mod_cast he
    have heq2 : ((M1.minute : ℚ)) = ((M2.minute : ℚ)) := by exact_mod_cast he2
    linarith

lemma to_julian_day_lt (M1 M2 : CivilMoment) (h1 : ValidCivil M1) (h2 : ValidCivil M2)
    (hlt : civilLt M1 M2) : to_julian_day M1 < to_julian_day M2 := by
  obtain ⟨a1, a2, a3, a4, a5, a6, a7, a8, a9, a10, a11, a12⟩ := h1
  obtain ⟨b1, b2, b3, b4, b5, b6, b7, b8, b9, b10, b11, b12⟩ := h2
  rw [to_julian_day_eq_intPart M1 a1 a3 a4, to_julian_day_eq_intPart M2 b1 b3 b4]
  have tf1a : 0 ≤ timeFrac M1 := timeFrac_nonneg M1 a7 a9 a11
  have tf1b : timeFrac M1 < 1 := timeFrac_lt_one M1 a8 a10 a12
  have tf2a : 0 ≤ timeFrac M2 := timeFrac_nonneg M2 b7 b9 b11
  have tf2b : timeFrac M2 < 1 := timeFrac_lt_one M2 b8 b10 b12
  rcases hlt with hy | ⟨hy, hm | ⟨hm, hd | ⟨hd, htime⟩⟩⟩
  · have hint := jdIntPart_date_lt M1.year M1.month M1.day M2.year M2.month M2.day
      a3 a4 b3 b4 a5 a6 b5 (Or.inl hy)
    have hc : ((jdIntPart M1.year M1.month : ℤ) : ℚ) + ((M1.day : ℚ)) + 1
        ≤ ((jdIntPart M2.year M2.month : ℤ) : ℚ) + ((M2.day : ℚ)) := by
      exact_mod_cast hint
    linarith
  · have hint := jdIntPart_date_lt M1.year M1.month M1.day M2.year M2.month M2.day
      a3 a4 b3 b4 a5 a6 b5 (Or.inr ⟨hy, Or.inl hm⟩)
    have hc : ((jdIntPart M1.year M1.month : ℤ) : ℚ) + ((M1.day : ℚ)) + 1
        ≤ ((jdIntPart M2.year M2.month : ℤ) : ℚ) + ((M2.day : ℚ)) := by
      exact_mod_cast hint
    linarith
  · have hint := jdIntPart_date_lt M1.year M1.month M1.day M2.year M2.month M2.day
      a3 a4 b3 b4 a5 a6 b5 (Or.inr ⟨hy, Or.inr ⟨hm, hd⟩⟩)
    have hc : ((jdIntPart M1.year M1.month : ℤ) : ℚ) + ((M1.day : ℚ)) + 1
        ≤ ((jdIntPart M2.year M2.month : ℤ) : ℚ) + ((M2.day : ℚ)) := by
      exact_mod_cast hint
    linarith
  · have htf := timeFrac_strict M1 M2 a10 a12 b9 b11 htime
    have hdq : ((M1.day : ℚ)) = ((M2.day : ℚ)) := by exact_mod_cast hd
    rw [hy, hm]
    linarith

lemma civil_trichotomy (a b : CivilMoment) : a = b ∨ civilLt a b ∨ civilLt b a := by
  obtain ⟨p1, p2, p3, p4, p5, p6⟩ := a
  obtain ⟨q1, q2, q3, q4, q5, q6⟩ := b
  simp only [civilLt, CivilMoment.mk.injEq]
  rcases lt_trichotomy p1 q1 with h1 | h1 | h1
  · exact Or.inr (Or.inl (Or.inl h1))
  · rcases lt_trichotomy p2 q2 with h2 | h2 | h2
    · exact Or.inr (Or.inl (Or.inr ⟨h1, Or.inl h2⟩))
    · rcases lt_trichotomy p3 q3 with h3 | h3 | h3
      · exact Or.inr (Or.inl (Or.inr ⟨h1, Or.inr ⟨h2, Or.inl h3⟩⟩))
      · rcases lt_trichotomy p4 q4 with h4 | h4 | h4
        · exact Or.inr (Or.inl (Or.inr ⟨h1, Or.inr ⟨h2, Or.inr ⟨h3, Or.inl h4⟩⟩⟩))
        · rcases lt_trichotomy p5 q5 with h5 | h5 | h5
          · exact Or.inr (Or.inl (Or.inr ⟨h1, Or.inr ⟨h2, Or.inr ⟨h3, Or.inr ⟨h4, Or.inl h5⟩⟩⟩⟩))
          · rcases lt_trichotomy p6 q6 with h6 | h6 | h6
            · exact Or.inr (Or.inl (Or.inr ⟨h1, Or.inr ⟨h2, Or.inr ⟨h3, Or.inr ⟨h4, Or.inr ⟨h5, h6⟩⟩⟩⟩⟩))
            · exact Or.inl ⟨h1, h2, h3, h4, h5, h6⟩
            · exact Or.inr (Or.inr (Or.inr ⟨h1.symm, Or.inr ⟨h2.symm, Or.inr ⟨h3.symm, Or.inr ⟨h4.symm, Or.inr ⟨h5.symm, h6⟩⟩⟩⟩⟩))
          · exact Or.inr (Or.inr (Or.inr ⟨h1.symm, Or.inr ⟨h2.symm, Or.inr ⟨h3.symm, Or.inr ⟨h4.symm, Or.inl h5⟩⟩⟩⟩))
        · exact Or.inr (Or.inr (Or.inr ⟨h1.symm, Or.inr ⟨h2.symm, Or.inr ⟨h3.symm, Or.inl h4⟩⟩⟩))
      · exact Or.inr (Or.inr (Or.inr ⟨h1.symm, Or.inr ⟨h2.symm, Or.inl h3⟩⟩))
    · exact Or.inr (Or.inr (Or.inr ⟨h1.symm, Or.inl h2⟩))
  · exact Or.inr (Or.inr (Or.inl h1))

/-- C9: the Julian Day conversion is strictly monotone with respect to the
calendar ordering of valid civil moments in the supported year range, and
therefore injective on them. -/
theorem to_julian_day_strict_mono (M1 M2 : CivilMoment)
    (h1 : ValidCivil M1) (h2 : ValidCivil M2) :
    (civilLt M1 M2 → to_julian_day M1 < to_julian_day M2) ∧
    (M1 ≠ M2 → to_julian_day M1 ≠ to_julian_day M2) := by
  constructor
  · exact fun hlt => to_julian_day_lt M1 M2 h1 h2 hlt
  · intro hne
    rcases civil_trichotomy M1 M2 with he | hlt | hgt
    · exact absurd he hne
    · exact ne_of_lt (to_julian_day_lt M1 M2 h1 h2 hlt)
    · exact ne_of_gt (to_julian_day_lt M2 M1 h2 h1 hgt)

/-- C9 (witness): the leap day of 2024 follows the end of 28 February 2024. -/
theorem to_julian_day_strict_mono_witness :
    to_julian_day ⟨2024, 2, 28, 23, 59, 59⟩ < to_julian_day ⟨2024, 2, 29, 0, 0, 0⟩ :=
  (to_julian_day_strict_mono ⟨2024, 2, 28, 23, 59, 59⟩ ⟨2024, 2, 29, 0, 0, 0⟩
    (by norm_num [ValidCivil, daysInMonth]) (by norm_num [ValidCivil, daysInMonth])).1
    (by norm_num [civilLt])

end Companion
